import Mathlib

/-!
Shallow embedding of the fieldeyes mining-backend repository (Go, GORM,
PostgreSQL) for checking its natural-language specification.

Monetary fields (`float64` in Go) are embedded as rationals `ℚ`; exact
arithmetic identities asserted by the spec are assignment identities in the
source, so the choice of number field is immaterial to them.  Database tables
are embedded as lists of rows; GORM soft delete (`gorm.DeletedAt`) is a
`deleted : Bool` flag, and GORM model-scoped queries (`Where`/`First`/`Find`/
`Model`) carry the implicit `deleted_at IS NULL` filter while `Raw` SQL
queries carry only the filters written in the SQL text.  `bcrypt` hashing
(external library) is abstracted as an injective tagging function.
-/

namespace Mining

/-- Calendar date, embedding Go `time.Time` at day granularity (the code
formats dates as `YYYY-MM-DD` strings and groups by `YYYY-MM`). -/
structure Date where
  year : Int
  month : Nat
  day : Nat
deriving DecidableEq

/-- Lexicographic date order; string comparison of `YYYY-MM-DD` keys in SQL
`BETWEEN` agrees with it. -/
def Date.leB (a b : Date) : Bool :=
  decide (a.year < b.year ∨ (a.year = b.year ∧
    (a.month < b.month ∨ (a.month = b.month ∧ a.day ≤ b.day))))

/-- Embeds `TO_CHAR(date, 'YYYY-MM')` month key, as the (year, month) pair the
string determines. -/
def monthKey (d : Date) : Int × Nat := (d.year, d.month)

/-- Embeds `data.PaymentStatus` (`paid` / `unpaid` / `partial`); the validation
boundary admits exactly these three strings. -/
inductive PaymentStatus where
  | paid
  | unpaid
  | partly
deriving DecidableEq

/-- Embeds `data.Income` row (columns of the `incomes` table that the embedded
operations read or write; `deleted` is the `deleted_at IS NOT NULL` flag). -/
structure Income where
  id : Nat
  date : Date
  mineralType : String
  quantity : ℚ
  unit : String
  pricePerUnit : ℚ
  totalAmount : ℚ
  customerName : String
  customerContact : String
  paymentStatus : PaymentStatus
  amountPaid : ℚ
  amountDue : ℚ
  notes : Option String
  userId : Nat
  deleted : Bool
deriving DecidableEq

/-- Embeds `data.Expense` row. -/
structure Expense where
  id : Nat
  date : Date
  category : String
  description : String
  amount : ℚ
  supplierName : String
  supplierContact : Option String
  paymentStatus : PaymentStatus
  amountPaid : ℚ
  amountDue : ℚ
  notes : Option String
  userId : Nat
  deleted : Bool
deriving DecidableEq

/-- Embeds `data.InventoryItem` row (`lastUpdated` as an abstract timestamp). -/
structure InventoryItem where
  id : Nat
  name : String
  itemType : String
  quantity : ℚ
  unit : String
  minStockLevel : ℚ
  currentValue : ℚ
  lastUpdated : Int
  userId : Nat
  deleted : Bool
deriving DecidableEq

/-- Embeds `data.User` row (OTP expiry as an abstract integer timestamp). -/
structure User where
  id : Nat
  email : String
  name : String
  phone : Option String
  password : String
  role : String
  location : Option String
  otpCode : String
  otpExpiresAt : Option Int
  deleted : Bool
deriving DecidableEq

/-- Embeds `data.FinancialSummary`. -/
structure FinancialSummary where
  totalIncome : ℚ
  totalExpenses : ℚ
  netProfit : ℚ
  totalReceivables : ℚ
  totalPayables : ℚ
  profitMargin : ℚ
deriving DecidableEq

/-- Embeds `data.MonthlyData`; the `month` key stands for the `YYYY-MM` string. -/
structure MonthlyData where
  month : Int × Nat
  income : ℚ
  expenses : ℚ
  profit : ℚ
deriving DecidableEq

/-- Embeds `data.CategoryBreakdown`. -/
structure CategoryBreakdown where
  category : String
  amount : ℚ
  percentage : ℚ
deriving DecidableEq

/-- SQL `SUM` / the Go accumulation loops: left fold of addition. -/
def sumQ (l : List ℚ) : ℚ := l.foldl (· + ·) 0

/-! ## Income repository (`data/income.go`) -/

namespace IncomeRepository

/-- Row predicate of `Where("user_id = ?", userID)` under the GORM default
scope (`deleted_at IS NULL`). -/
def liveOf (userID : Nat) (r : Income) : Bool := r.userId == userID && !r.deleted

/-- Date-descending order used by `Order("date DESC")`. -/
def dateDesc (a b : Income) : Prop := Date.leB b.date a.date = true

instance : DecidableRel dateDesc := fun a b =>
  inferInstanceAs (Decidable (Date.leB b.date a.date = true))

/-- Embeds `IncomeRepository.GetAll`: user-scoped, soft-delete-filtered, newest
date first. -/
def GetAll (db : List Income) (userID : Nat) : List Income :=
  List.insertionSort dateDesc (db.filter (liveOf userID))

/-- Embeds `IncomeRepository.GetOne`: `First` on `id = ? AND user_id = ?` under the
default scope; `none` is GORM `ErrRecordNotFound`. -/
def GetOne (db : List Income) (id userID : Nat) : Option Income :=
  (db.filter (fun r => r.id == id && r.userId == userID && !r.deleted)).head?

/-- The two assignments at the head of `Insert`/`Update`: recompute
`TotalAmount` and `AmountDue` from the current field values. -/
def recompute (income : Income) : Income :=
  let totalAmount := income.quantity * income.pricePerUnit
  { income with totalAmount := totalAmount,
                amountDue := totalAmount - income.amountPaid }

/-- Embeds `IncomeRepository.Insert`: recompute derived fields, then `Create`
(appends the row). -/
def Insert (db : List Income) (income : Income) : List Income :=
  db ++ [recompute income]

/-- GORM `Save` on a row with a non-zero primary key: `UPDATE ... WHERE id =
? AND deleted_at IS NULL`. -/
def save (db : List Income) (income : Income) : List Income :=
  db.map (fun r => if r.id == income.id && !r.deleted then income else r)

/-- Embeds `IncomeRepository.Update`: recompute derived fields, then `Save`. -/
def Update (db : List Income) (income : Income) : List Income :=
  save db (recompute income)

/-- The per-row effect of soft `Delete` scoped by `(id, user_id)`. -/
def markDeleted (id userID : Nat) (r : Income) : Income :=
  if r.id == id && r.userId == userID && !r.deleted then
    { r with deleted := true }
  else r

/-- Embeds `IncomeRepository.Delete`: GORM soft delete; rows matching the scope get
their deletion marker set, and the call returns a nil error even when no row
matches. -/
def Delete (db : List Income) (id userID : Nat) : List Income :=
  db.map (markDeleted id userID)

/-- Embeds `IncomeRepository.GetByDateRange`: user-scoped, default scope, SQL
`BETWEEN` (inclusive both ends), newest date first. -/
def GetByDateRange (db : List Income) (userID : Nat) (startDate endDate : Date) :
    List Income :=
  List.insertionSort dateDesc
    (db.filter (fun r => r.userId == userID && !r.deleted &&
      Date.leB startDate r.date && Date.leB r.date endDate))

/-- Embeds `IncomeRepository.GetFinancialSummary`: two sums, both explicitly
filtered by `deleted_at IS NULL`; receivables restricted to payment status
in (`unpaid`, `partial`). -/
def GetFinancialSummary (db : List Income) (userID : Nat) : FinancialSummary :=
  let totalIncome := sumQ ((db.filter (liveOf userID)).map (fun r => r.totalAmount))
  let totalReceivables := sumQ ((db.filter (fun r => liveOf userID r &&
      decide (r.paymentStatus = .unpaid ∨ r.paymentStatus = .partly))).map
    (fun r => r.amountDue))
  { totalIncome := totalIncome, totalExpenses := 0, netProfit := 0,
    totalReceivables := totalReceivables, totalPayables := 0, profitMargin := 0 }

/-- Embeds `IncomeRepository.GetMonthlyData`: raw SQL grouped by `YYYY-MM` with
`SUM(total_amount)`, filtered only by `user_id` and the year — the raw query
text has no `deleted_at` filter and GORM adds none to `Raw`. -/
def GetMonthlyData (db : List Income) (userID : Nat) (year : Int) : List MonthlyData :=
  let rows := db.filter (fun r => r.userId == userID && r.date.year == year)
  let months := (rows.map (fun r => monthKey r.date)).dedup
  months.map (fun m =>
    { month := m,
      income := sumQ ((rows.filter (fun r => decide (monthKey r.date = m))).map
        (fun r => r.totalAmount)),
      expenses := 0, profit := 0 })

end IncomeRepository

/-! ## Expense repository (`data/expense.go`) -/

namespace ExpenseRepository

/-- Row predicate of `Where("user_id = ?", userID)` under the default scope. -/
def liveOf (userID : Nat) (r : Expense) : Bool := r.userId == userID && !r.deleted

/-- Date-descending order used by `Order("date DESC")`. -/
def dateDesc (a b : Expense) : Prop := Date.leB b.date a.date = true

instance : DecidableRel dateDesc := fun a b =>
  inferInstanceAs (Decidable (Date.leB b.date a.date = true))

/-- Embeds `ExpenseRepository.GetAll`. -/
def GetAll (db : List Expense) (userID : Nat) : List Expense :=
  List.insertionSort dateDesc (db.filter (liveOf userID))

/-- Embeds `ExpenseRepository.GetOne`. -/
def GetOne (db : List Expense) (id userID : Nat) : Option Expense :=
  (db.filter (fun r => r.id == id && r.userId == userID && !r.deleted)).head?

/-- The `AmountDue` recomputation at the head of `Insert`/`Update`. -/
def recompute (expense : Expense) : Expense :=
  { expense with amountDue := expense.amount - expense.amountPaid }

/-- Embeds `ExpenseRepository.Insert`. -/
def Insert (db : List Expense) (expense : Expense) : List Expense :=
  db ++ [recompute expense]

/-- GORM `Save` (update by primary key under the default scope). -/
def save (db : List Expense) (expense : Expense) : List Expense :=
  db.map (fun r => if r.id == expense.id && !r.deleted then expense else r)

/-- Embeds `ExpenseRepository.Update`. -/
def Update (db : List Expense) (expense : Expense) : List Expense :=
  save db (recompute expense)

/-- The per-row effect of soft `Delete` scoped by `(id, user_id)`. -/
def markDeleted (id userID : Nat) (r : Expense) : Expense :=
  if r.id == id && r.userId == userID && !r.deleted then
    { r with deleted := true }
  else r

/-- Embeds `ExpenseRepository.Delete`: soft delete, nil error regardless of whether
a row matched. -/
def Delete (db : List Expense) (id userID : Nat) : List Expense :=
  db.map (markDeleted id userID)

/-- Embeds `ExpenseRepository.GetByDateRange`. -/
def GetByDateRange (db : List Expense) (userID : Nat) (startDate endDate : Date) :
    List Expense :=
  List.insertionSort dateDesc
    (db.filter (fun r => r.userId == userID && !r.deleted &&
      Date.leB startDate r.date && Date.leB r.date endDate))

/-- Sum of the `amount` column over one category group (`GROUP BY category`,
`SUM(amount)`). -/
def groupSum (rows : List Expense) (c : String) : ℚ :=
  sumQ ((rows.filter (fun r => r.category == c)).map (fun r => r.amount))

/-- Amount-descending order of `ORDER BY amount DESC` on the grouped rows. -/
def amountDesc (a b : String × ℚ) : Prop := b.2 ≤ a.2

instance : DecidableRel amountDesc := fun a b =>
  inferInstanceAs (Decidable (b.2 ≤ a.2))

/-- The rows the breakdown SQL returns: one `(category, SUM(amount))` pair
per category occurring among the user's live rows (`GROUP BY category` with
the explicit `deleted_at IS NULL` filter of the raw query). -/
def groupedRows (db : List Expense) (userID : Nat) : List (String × ℚ) :=
  ((db.filter (liveOf userID)).map (fun r => r.category)).dedup.map
    (fun c => (c, groupSum (db.filter (liveOf userID)) c))

/-- The same rows in the `ORDER BY amount DESC` order of the query. -/
def sortedGroups (db : List Expense) (userID : Nat) : List (String × ℚ) :=
  List.insertionSort amountDesc (groupedRows db userID)

/-- Embeds `ExpenseRepository.GetCategoryBreakdown`: the Go loops over the query
rows sum the grouped amounts into `totalAmount` and set each percentage to
`amount / totalAmount * 100` only when `totalAmount > 0` (leaving the zero
value otherwise). -/
def GetCategoryBreakdown (db : List Expense) (userID : Nat) : List CategoryBreakdown :=
  let totalAmount := sumQ ((sortedGroups db userID).map (fun p => p.2))
  (sortedGroups db userID).map (fun p =>
    { category := p.1, amount := p.2,
      percentage := if 0 < totalAmount then p.2 / totalAmount * 100 else 0 })

/-- Embeds `ExpenseRepository.GetMonthlyData`: raw SQL grouped by `YYYY-MM` with
`SUM(amount)`; like the income rollup, the raw query has no `deleted_at`
filter. -/
def GetMonthlyData (db : List Expense) (userID : Nat) (year : Int) : List MonthlyData :=
  let rows := db.filter (fun r => r.userId == userID && r.date.year == year)
  let months := (rows.map (fun r => monthKey r.date)).dedup
  months.map (fun m =>
    { month := m, income := 0,
      expenses := sumQ ((rows.filter (fun r => decide (monthKey r.date = m))).map
        (fun r => r.amount)),
      profit := 0 })

/-- Embeds `ExpenseRepository.GetFinancialSummary`: model-scoped sums (default
scope filters deleted rows); payables restricted to status in
(`unpaid`, `partial`). -/
def GetFinancialSummary (db : List Expense) (userID : Nat) : FinancialSummary :=
  let totalExpenses := sumQ ((db.filter (liveOf userID)).map (fun r => r.amount))
  let totalPayables := sumQ ((db.filter (fun r => liveOf userID r &&
      decide (r.paymentStatus = .unpaid ∨ r.paymentStatus = .partly))).map
    (fun r => r.amountDue))
  { totalIncome := 0, totalExpenses := totalExpenses, netProfit := 0,
    totalReceivables := totalPayables, totalPayables := 0, profitMargin := 0 }

end ExpenseRepository

/-! ## Inventory repository (`data/inventory.go`) -/

namespace InventoryRepository

/-- Row predicate of `Where("user_id = ?", userID)` under the default scope. -/
def liveOf (userID : Nat) (r : InventoryItem) : Bool := r.userId == userID && !r.deleted

/-- Name-ascending order of `Order("name ASC")`. -/
def nameAsc (a b : InventoryItem) : Prop := a.name ≤ b.name

instance : DecidableRel nameAsc := fun a b =>
  inferInstanceAs (Decidable (a.name ≤ b.name))

/-- Quantity-ascending order of `Order("quantity ASC")`. -/
def quantityAsc (a b : InventoryItem) : Prop := a.quantity ≤ b.quantity

instance : DecidableRel quantityAsc := fun a b =>
  inferInstanceAs (Decidable (a.quantity ≤ b.quantity))

instance : IsTotal InventoryItem quantityAsc :=
  ⟨fun a b => le_total a.quantity b.quantity⟩

instance : IsTrans InventoryItem quantityAsc :=
  ⟨fun _ _ _ hab hbc => le_trans hab hbc⟩

/-- Embeds `InventoryRepository.GetAll`. -/
def GetAll (db : List InventoryItem) (userID : Nat) : List InventoryItem :=
  List.insertionSort nameAsc (db.filter (liveOf userID))

/-- Embeds `InventoryRepository.GetOne`. -/
def GetOne (db : List InventoryItem) (id userID : Nat) : Option InventoryItem :=
  (db.filter (fun r => r.id == id && r.userId == userID && !r.deleted)).head?

/-- Embeds `InventoryRepository.GetLowStockItems`: `user_id = ? AND quantity <=
min_stock_level` under the default scope, ordered by quantity ascending. -/
def GetLowStockItems (db : List InventoryItem) (userID : Nat) : List InventoryItem :=
  List.insertionSort quantityAsc
    (db.filter (fun r => r.userId == userID && !r.deleted &&
      decide (r.quantity ≤ r.minStockLevel)))

end InventoryRepository

/-! ## User repository (`data/user.go`) -/

/-- Embeds `data.HashPassword` (bcrypt, external library) abstracted as an
injective tagging function; all the embedded code needs is that hashing is a
function of the plaintext and that a hash differs from its preimage. -/
def HashPassword (password : String) : String := "bcrypt$" ++ password

namespace UserRepository

/-- Embeds `UserRepository.GetByEmail`: `First` on `email = ?` under the default
scope. -/
def GetByEmail (db : List User) (email : String) : Option User :=
  (db.filter (fun u => u.email == email && !u.deleted)).head?

/-- Embeds `UserRepository.GetOne`: `First` by primary key under the default scope. -/
def GetOne (db : List User) (id : Nat) : Option User :=
  (db.filter (fun u => u.id == id && !u.deleted)).head?

/-- Embeds `UserRepository.Update`: if the `Password` field is non-empty it is
re-hashed, then `Save` writes the whole row by primary key. -/
def Update (db : List User) (user : User) : List User :=
  let user := if user.password = "" then user
    else { user with password := HashPassword user.password }
  db.map (fun u => if u.id == user.id && !u.deleted then user else u)

/-- Embeds `UserRepository.GenerateAndSaveOTP`: set `otp_code` and `otp_expires_at
= now + 10 minutes` on the row matching the email (model-scoped `Updates`,
so the default scope applies); the freshly generated 6-digit code is the
`otp` argument (its random generation is outside the claims). -/
def GenerateAndSaveOTP (db : List User) (email otp : String) (now : Int) : List User :=
  db.map (fun u => if u.email == email && !u.deleted then
    { u with otpCode := otp, otpExpiresAt := some (now + 600) } else u)

/-- Embeds `UserRepository.VerifyOTP`: `First` on `email = ? AND otp_code = ? AND
otp_expires_at > now` under the default scope; a missing row is the boolean
`false`, not an error. -/
def VerifyOTP (db : List User) (email otp : String) (now : Int) : Bool :=
  db.any (fun u => u.email == email && u.otpCode == otp && !u.deleted &&
    (match u.otpExpiresAt with
     | some t => decide (now < t)
     | none => false))

/-- Embeds `UserRepository.ResetPasswordWithOTP`: verify the code first and fail
closed (error, no write); on success one `Updates` call stores the hash of
the new password and clears `otp_code` and `otp_expires_at` together.  The
returned pair is (call result, table state afterwards). -/
def ResetPasswordWithOTP (db : List User) (email otp newPassword : String)
    (now : Int) : Except String Unit × List User :=
  if VerifyOTP db email otp now then
    (Except.ok (),
     db.map (fun u => if u.email == email && !u.deleted then
       { u with password := HashPassword newPassword, otpCode := "",
                otpExpiresAt := none } else u))
  else
    (Except.error "invalid or expired OTP", db)

end UserRepository

/-! ## Handler layer (`handlers/*.go`), request-level views of the claims -/

/-- The response classes the handlers produce via `pkg/utils/response.go`
(200 / 400 / 401 / 404 / 500).  There is no "forbidden" class anywhere in
the handler layer. -/
inductive HandlerStatus where
  | success
  | validationError
  | notFound
  | unauthorized
  | serverError
deriving DecidableEq

/-- Go `strings.TrimSpace`: strip leading and trailing whitespace. -/
def trimSpace (s : String) : String :=
  String.mk (((s.data.dropWhile Char.isWhitespace).reverse.dropWhile
    Char.isWhitespace).reverse)

/-- Embeds `utils.ValidateRequired`: `strings.TrimSpace(value) != ""`. -/
def ValidateRequired (value : String) : Bool := trimSpace value != ""

/-- Embeds `utils.ValidatePositiveNumber`. -/
def ValidatePositiveNumber (value : ℚ) : Bool := decide (0 < value)

/-- Embeds `utils.ValidateNonNegativeNumber`. -/
def ValidateNonNegativeNumber (value : ℚ) : Bool := decide (0 ≤ value)

/-- The mineral-type whitelist check in the income handlers. -/
def validMineralType (s : String) : Bool :=
  s == "gold" || s == "copper" || s == "cobalt" || s == "diamond" || s == "other"

/-- The expense-category whitelist check in the expense handlers. -/
def validExpenseCategory (s : String) : Bool :=
  s == "equipment" || s == "labor" || s == "chemicals" || s == "fuel" ||
  s == "maintenance" || s == "transport" || s == "other"

/-- The payment-status whitelist check shared by both handlers. -/
def parsePaymentStatus (s : String) : Option PaymentStatus :=
  if s == "paid" then some .paid
  else if s == "unpaid" then some .unpaid
  else if s == "partial" then some .partly
  else none

/-- Embeds `handlers.UpdateIncomeRequest`, with the date already past
`time.Parse` (JSON decoding and date parsing are handler plumbing outside
the claims). -/
structure UpdateIncomeRequest where
  date : Date
  mineralType : String
  quantity : ℚ
  unit : String
  pricePerUnit : ℚ
  customerName : String
  customerContact : String
  paymentStatus : String
  amountPaid : ℚ
  notes : String

/-- Embeds `handlers.UpdateExpenseRequest`, likewise. -/
structure UpdateExpenseRequest where
  date : Date
  category : String
  description : String
  amount : ℚ
  supplierName : String
  supplierContact : String
  paymentStatus : String
  amountPaid : ℚ
  notes : String

namespace IncomeHandler

/-- Embeds `IncomeHandler.GetIncome`: repository `GetOne`; a repository error maps
to the 404 not-found response. -/
def GetIncome (db : List Income) (id userID : Nat) :
    HandlerStatus × Option Income :=
  match IncomeRepository.GetOne db id userID with
  | some income => (.success, some income)
  | none => (.notFound, none)

/-- Embeds `IncomeHandler.UpdateIncome`: fetch the existing row scoped by `(id,
user)` first — a miss is the 404 response before any validation or write —
then validate the request, recompute the derived fields, and `Update`. -/
def UpdateIncome (db : List Income) (id userID : Nat) (req : UpdateIncomeRequest) :
    HandlerStatus × List Income :=
  match IncomeRepository.GetOne db id userID with
  | none => (.notFound, db)
  | some income =>
    if !ValidateRequired req.mineralType then (.validationError, db)
    else if !ValidatePositiveNumber req.quantity then (.validationError, db)
    else if !ValidateRequired req.unit then (.validationError, db)
    else if !ValidatePositiveNumber req.pricePerUnit then (.validationError, db)
    else if !ValidateRequired req.customerName then (.validationError, db)
    else if !ValidateNonNegativeNumber req.amountPaid then (.validationError, db)
    else if !validMineralType req.mineralType then (.validationError, db)
    else
      match parsePaymentStatus req.paymentStatus with
      | none => (.validationError, db)
      | some ps =>
        let totalAmount := req.quantity * req.pricePerUnit
        let amountDue := totalAmount - req.amountPaid
        let income := { income with
          date := req.date, mineralType := req.mineralType,
          quantity := req.quantity, unit := req.unit,
          pricePerUnit := req.pricePerUnit, totalAmount := totalAmount,
          customerName := req.customerName,
          customerContact := req.customerContact, paymentStatus := ps,
          amountPaid := req.amountPaid, amountDue := amountDue,
          notes := if req.notes != "" then some req.notes else none }
        (.success, IncomeRepository.Update db income)

/-- Embeds `IncomeHandler.DeleteIncome`: calls the repository delete and reports
its (always nil) error; there is no ownership-miss check, so the response is
the 200 success envelope whether or not any row matched. -/
def DeleteIncome (db : List Income) (id userID : Nat) :
    HandlerStatus × List Income :=
  (.success, IncomeRepository.Delete db id userID)

end IncomeHandler

namespace ExpenseHandler

/-- Embeds `ExpenseHandler.GetExpense`. -/
def GetExpense (db : List Expense) (id userID : Nat) :
    HandlerStatus × Option Expense :=
  match ExpenseRepository.GetOne db id userID with
  | some expense => (.success, some expense)
  | none => (.notFound, none)

/-- Embeds `ExpenseHandler.UpdateExpense`: ownership-scoped fetch first (404 on a
miss), then validation, then `Update`. -/
def UpdateExpense (db : List Expense) (id userID : Nat) (req : UpdateExpenseRequest) :
    HandlerStatus × List Expense :=
  match ExpenseRepository.GetOne db id userID with
  | none => (.notFound, db)
  | some expense =>
    if !ValidateRequired req.category then (.validationError, db)
    else if !ValidateRequired req.description then (.validationError, db)
    else if !ValidatePositiveNumber req.amount then (.validationError, db)
    else if !ValidateRequired req.supplierName then (.validationError, db)
    else if !ValidateNonNegativeNumber req.amountPaid then (.validationError, db)
    else if !validExpenseCategory req.category then (.validationError, db)
    else
      match parsePaymentStatus req.paymentStatus with
      | none => (.validationError, db)
      | some ps =>
        let amountDue := req.amount - req.amountPaid
        let expense := { expense with
          date := req.date, category := req.category,
          description := req.description, amount := req.amount,
          supplierName := req.supplierName, paymentStatus := ps,
          amountPaid := req.amountPaid, amountDue := amountDue,
          supplierContact := if req.supplierContact != "" then
            some req.supplierContact else none,
          notes := if req.notes != "" then some req.notes else none }
        (.success, ExpenseRepository.Update db expense)

/-- Embeds `ExpenseHandler.DeleteExpense`: like the income delete, success is
reported regardless of whether a row matched. -/
def DeleteExpense (db : List Expense) (id userID : Nat) :
    HandlerStatus × List Expense :=
  (.success, ExpenseRepository.Delete db id userID)

end ExpenseHandler

namespace AuthHandler

/-- Embeds `AuthHandler.UpdateProfile`: fetch the current user (404 on a miss),
overwrite name/phone/location from the request — the request struct has no
password field — and call the repository `Update`. -/
def UpdateProfile (db : List User) (userID : Nat) (name : String)
    (phone location : Option String) : HandlerStatus × List User :=
  if !ValidateRequired name then (.validationError, db)
  else
    match UserRepository.GetOne db userID with
    | none => (.notFound, db)
    | some user =>
      let user := { user with name := name, phone := phone, location := location }
      (.success, UserRepository.Update db user)

end AuthHandler

namespace AnalyticsHandler

/-- The set of month keys the merge map acquires: every month present in
either repository series. -/
def mergedMonths (incomeData expenseData : List MonthlyData) : List (Int × Nat) :=
  ((incomeData.map (fun d => d.month)) ++
    (expenseData.map (fun d => d.month))).dedup

/-- The final map entry for one month: each loop pass overwrites the entry's
side with the source value, so the entry holds the last income (resp.
expense) value its source series carries for that month — the zero value
when the month is absent from that source — and profit is then derived as
income minus expenses. -/
def mergeEntry (incomeData expenseData : List MonthlyData) (m : Int × Nat) :
    MonthlyData :=
  let income := (((incomeData.filter (fun d => decide (d.month = m))).map
    (fun d => d.income)).getLast?).getD 0
  let expenses := (((expenseData.filter (fun d => decide (d.month = m))).map
    (fun d => d.expenses)).getLast?).getD 0
  { month := m, income := income, expenses := expenses,
    profit := income - expenses }

/-- Embeds `AnalyticsHandler.GetMonthlyData`, the merge step.  The Go map iteration
order is unspecified; this embedding fixes one deterministic order of the
month keys, and no ordering property is claimed of it. -/
def GetMonthlyData (incomeData expenseData : List MonthlyData) : List MonthlyData :=
  (mergedMonths incomeData expenseData).map (mergeEntry incomeData expenseData)

end AnalyticsHandler

/-! ## Concrete rows used to instantiate the theorems -/

/-- An income record owned by user 1 (the §8 end-to-end scenario row). -/
def exIncomeA : Income :=
  { id := 1, date := ⟨2025, 1, 10⟩, mineralType := "gold", quantity := 10,
    unit := "g", pricePerUnit := 50, totalAmount := 500, customerName := "Acme",
    customerContact := "", paymentStatus := .partly, amountPaid := 300,
    amountDue := 200, notes := none, userId := 1, deleted := false }

/-- An expense record owned by user 1. -/
def exExpenseA : Expense :=
  { id := 1, date := ⟨2025, 1, 12⟩, category := "fuel", description := "Diesel",
    amount := 120, supplierName := "FuelCo", supplierContact := none,
    paymentStatus := .unpaid, amountPaid := 0, amountDue := 120, notes := none,
    userId := 1, deleted := false }

/-- A well-formed income update request. -/
def exUpdateIncomeReq : UpdateIncomeRequest :=
  { date := ⟨2025, 1, 11⟩, mineralType := "gold", quantity := 5, unit := "g",
    pricePerUnit := 40, customerName := "Acme", customerContact := "",
    paymentStatus := "paid", amountPaid := 200, notes := "" }

/-- A well-formed expense update request. -/
def exUpdateExpenseReq : UpdateExpenseRequest :=
  { date := ⟨2025, 1, 13⟩, category := "fuel", description := "Diesel",
    amount := 80, supplierName := "FuelCo", supplierContact := "",
    paymentStatus := "paid", amountPaid := 80, notes := "" }

/-- An income row carrying caller-supplied junk in the derived columns. -/
def exJunkIncome : Income :=
  { exIncomeA with totalAmount := 999, amountDue := -5 }

/-- An expense row carrying caller-supplied junk in the derived column. -/
def exJunkExpense : Expense :=
  { exExpenseA with amountDue := 777 }

/-- A soft-deleted income record of user 1 dated 2025-03. -/
def exDeletedIncome : Income :=
  { id := 7, date := ⟨2025, 3, 10⟩, mineralType := "gold", quantity := 2,
    unit := "g", pricePerUnit := 50, totalAmount := 100, customerName := "Acme",
    customerContact := "", paymentStatus := .paid, amountPaid := 100,
    amountDue := 0, notes := none, userId := 1, deleted := true }

/-- A user whose stored password column holds the bcrypt hash of "secret". -/
def exProfileUser : User :=
  { id := 1, email := "miner@example.com", name := "Old Name", phone := none,
    password := HashPassword "secret", role := "standard", location := none,
    otpCode := "", otpExpiresAt := none, deleted := false }

/-- A user awaiting a password-reset code. -/
def exOtpUser : User :=
  { id := 2, email := "reset@example.com", name := "R", phone := none,
    password := HashPassword "pw", role := "standard", location := none,
    otpCode := "", otpExpiresAt := none, deleted := false }

/-- The same user after a code valid until time 600 was stored. -/
def exOtpUserSet : User :=
  { exOtpUser with otpCode := "654321", otpExpiresAt := some 600 }

/-- Three expenses of user 1 in two categories (fuel 120 + 40, labor 80). -/
def exExpenses : List Expense :=
  [exExpenseA,
   { exExpenseA with id := 2, category := "labor", amount := 80 },
   { exExpenseA with id := 3, amount := 40 }]

/-- A monthly income series (2025-01 and 2025-02). -/
def exIncMonthly : List MonthlyData :=
  [{ month := (2025, 1), income := 100, expenses := 0, profit := 0 },
   { month := (2025, 2), income := 50, expenses := 0, profit := 0 }]

/-- A monthly expense series (2025-02 and 2025-03). -/
def exExpMonthly : List MonthlyData :=
  [{ month := (2025, 2), income := 0, expenses := 30, profit := 0 },
   { month := (2025, 3), income := 0, expenses := 20, profit := 0 }]

/-- The income invariant asserted by the spec (§8). -/
def incomeInvariant (r : Income) : Prop :=
  r.totalAmount = r.quantity * r.pricePerUnit ∧
  r.amountDue = r.totalAmount - r.amountPaid

instance (r : Income) : Decidable (incomeInvariant r) :=
  inferInstanceAs (Decidable (_ ∧ _))

/-- The expense invariant asserted by the spec (§8). -/
def expenseInvariant (r : Expense) : Prop :=
  r.amountDue = r.amount - r.amountPaid

instance (r : Expense) : Decidable (expenseInvariant r) :=
  inferInstanceAs (Decidable (_ = _))

/-! ## Shared lemmas -/

/-- Left fold of addition with an arbitrary accumulator. -/
theorem foldl_add_shift (l : List ℚ) : ∀ x : ℚ,
    l.foldl (· + ·) x = x + l.foldl (· + ·) 0 := by
  induction l with
  | nil => intro x; simp
  | cons b t ih =>
    intro x
    simp only [List.foldl_cons]
    rw [ih (x + b), ih (0 + b)]
    ring

theorem sumQ_nil : sumQ [] = 0 := rfl

theorem sumQ_cons (a : ℚ) (l : List ℚ) : sumQ (a :: l) = a + sumQ l := by
  simp only [sumQ, List.foldl_cons]
  rw [foldl_add_shift l (0 + a)]
  ring

/-- Filtering an already-stricter filter is the identity. -/
theorem filter_balanced {α : Type} (p q : α → Bool)
    (h : ∀ a, p a = true → q a = true) (l : List α) :
    (l.filter q).filter p = l.filter p := by
  rw [List.filter_filter]
  apply List.filter_congr
  intro a _
  cases hp : p a with
  | true => simp [h a hp]
  | false => simp

theorem incomeInvariant_recompute (income : Income) :
    incomeInvariant (IncomeRepository.recompute income) := by
  constructor <;> rfl

theorem expenseInvariant_recompute (expense : Expense) :
    expenseInvariant (ExpenseRepository.recompute expense) := rfl

theorem income_markDeleted_date (id uid : Nat) (r : Income) :
    (IncomeRepository.markDeleted id uid r).date = r.date := by
  unfold IncomeRepository.markDeleted
  split <;> rfl

theorem income_markDeleted_userId (id uid : Nat) (r : Income) :
    (IncomeRepository.markDeleted id uid r).userId = r.userId := by
  unfold IncomeRepository.markDeleted
  split <;> rfl

theorem income_markDeleted_totalAmount (id uid : Nat) (r : Income) :
    (IncomeRepository.markDeleted id uid r).totalAmount = r.totalAmount := by
  unfold IncomeRepository.markDeleted
  split <;> rfl

theorem expense_markDeleted_date (id uid : Nat) (r : Expense) :
    (ExpenseRepository.markDeleted id uid r).date = r.date := by
  unfold ExpenseRepository.markDeleted
  split <;> rfl

theorem expense_markDeleted_userId (id uid : Nat) (r : Expense) :
    (ExpenseRepository.markDeleted id uid r).userId = r.userId := by
  unfold ExpenseRepository.markDeleted
  split <;> rfl

theorem expense_markDeleted_amount (id uid : Nat) (r : Expense) :
    (ExpenseRepository.markDeleted id uid r).amount = r.amount := by
  unfold ExpenseRepository.markDeleted
  split <;> rfl

/-- The income monthly rollup only reads `user_id`, the date and
`total_amount`, so it is unchanged by any row transformation preserving
those columns. -/
theorem income_monthly_map_invariant (g : Income → Income)
    (h1 : ∀ r, (g r).date = r.date) (h2 : ∀ r, (g r).userId = r.userId)
    (h3 : ∀ r, (g r).totalAmount = r.totalAmount)
    (db : List Income) (uid : Nat) (y : Int) :
    IncomeRepository.GetMonthlyData (db.map g) uid y =
      IncomeRepository.GetMonthlyData db uid y := by
  simp only [IncomeRepository.GetMonthlyData]
  have hfilter : (db.map g).filter (fun r => r.userId == uid && r.date.year == y)
      = (db.filter (fun r => r.userId == uid && r.date.year == y)).map g := by
    rw [List.filter_map]
    congr 1
    apply List.filter_congr
    intro a _
    simp [Function.comp, h1 a, h2 a]
  rw [hfilter]
  set rows := db.filter (fun r => r.userId == uid && r.date.year == y)
  have hmonths : (rows.map g).map (fun r => monthKey r.date)
      = rows.map (fun r => monthKey r.date) := by
    rw [List.map_map]
    apply List.map_congr_left
    intro a _
    simp [Function.comp, h1 a]
  rw [hmonths]
  apply List.map_congr_left
  intro m _
  have hsum : ((rows.map g).filter (fun r => decide (monthKey r.date = m))).map
      (fun r => r.totalAmount)
      = (rows.filter (fun r => decide (monthKey r.date = m))).map
        (fun r => r.totalAmount) := by
    rw [List.filter_map]
    have hq : rows.filter ((fun r => decide (monthKey r.date = m)) ∘ g)
        = rows.filter (fun r => decide (monthKey r.date = m)) := by
      apply List.filter_congr
      intro a _
      simp [Function.comp, h1 a]
    rw [hq, List.map_map]
    apply List.map_congr_left
    intro a _
    simp [Function.comp, h3 a]
  rw [hsum]

/-- The expense monthly rollup only reads `user_id`, the date and `amount`. -/
theorem expense_monthly_map_invariant (g : Expense → Expense)
    (h1 : ∀ r, (g r).date = r.date) (h2 : ∀ r, (g r).userId = r.userId)
    (h3 : ∀ r, (g r).amount = r.amount)
    (db : List Expense) (uid : Nat) (y : Int) :
    ExpenseRepository.GetMonthlyData (db.map g) uid y =
      ExpenseRepository.GetMonthlyData db uid y := by
  simp only [ExpenseRepository.GetMonthlyData]
  have hfilter : (db.map g).filter (fun r => r.userId == uid && r.date.year == y)
      = (db.filter (fun r => r.userId == uid && r.date.year == y)).map g := by
    rw [List.filter_map]
    congr 1
    apply List.filter_congr
    intro a _
    simp [Function.comp, h1 a, h2 a]
  rw [hfilter]
  set rows := db.filter (fun r => r.userId == uid && r.date.year == y)
  have hmonths : (rows.map g).map (fun r => monthKey r.date)
      = rows.map (fun r => monthKey r.date) := by
    rw [List.map_map]
    apply List.map_congr_left
    intro a _
    simp [Function.comp, h1 a]
  rw [hmonths]
  apply List.map_congr_left
  intro m _
  have hsum : ((rows.map g).filter (fun r => decide (monthKey r.date = m))).map
      (fun r => r.amount)
      = (rows.filter (fun r => decide (monthKey r.date = m))).map
        (fun r => r.amount) := by
    rw [List.filter_map]
    have hq : rows.filter ((fun r => decide (monthKey r.date = m)) ∘ g)
        = rows.filter (fun r => decide (monthKey r.date = m)) := by
      apply List.filter_congr
      intro a _
      simp [Function.comp, h1 a]
    rw [hq, List.map_map]
    apply List.map_congr_left
    intro a _
    simp [Function.comp, h3 a]
  rw [hsum]

/-! ## Claim theorems -/

/-- C2.  For every income record, after `IncomeRepository.Insert` or
`IncomeRepository.Update` every stored record satisfies
`total_amount = quantity * price_per_unit` and
`amount_due = total_amount - amount_paid` exactly, regardless of the
`total_amount` / `amount_due` values supplied by the caller (the table is
assumed to satisfy the invariant beforehand; the written row satisfies it
unconditionally). -/
theorem income_derived_fields_recomputed (db : List Income) (income : Income)
    (h : ∀ s ∈ db, incomeInvariant s) :
    (∀ s ∈ IncomeRepository.Insert db income, incomeInvariant s) ∧
    (∀ s ∈ IncomeRepository.Update db income, incomeInvariant s) := by
  constructor
  · intro s hs
    rcases List.mem_append.mp hs with hmem | hmem
    · exact h s hmem
    · rw [List.mem_singleton.mp hmem]
      exact incomeInvariant_recompute income
  · intro s hs
    rcases List.mem_map.mp hs with ⟨r, hr, hrs⟩
    by_cases hc : (r.id == (IncomeRepository.recompute income).id && !r.deleted) = true
    · rw [if_pos hc] at hrs
      rw [← hrs]
      exact incomeInvariant_recompute income
    · rw [if_neg hc] at hrs
      rw [← hrs]
      exact h r hr

/-- C2 witness: inserting and updating a record whose caller-supplied
`total_amount`/`amount_due` are junk still yields rows satisfying the income
invariant. -/
theorem income_derived_fields_recomputed_witness :
    (∀ s ∈ IncomeRepository.Insert [] exJunkIncome, incomeInvariant s) ∧
    (∀ s ∈ IncomeRepository.Update [IncomeRepository.recompute exJunkIncome]
      exJunkIncome, incomeInvariant s) := by
  have h := income_derived_fields_recomputed [] exJunkIncome (by simp)
  have h2 := income_derived_fields_recomputed
    [IncomeRepository.recompute exJunkIncome] exJunkIncome (by
      intro s hs
      rw [List.mem_singleton.mp hs]
      exact incomeInvariant_recompute exJunkIncome)
  exact ⟨h.1, h2.2⟩

/-- C8.  For every expense record, after `ExpenseRepository.Insert` or
`ExpenseRepository.Update` every stored record satisfies
`amount_due = amount - amount_paid`, the repository recomputing it from the
current `amount` and `amount_paid` fields. -/
theorem expense_amount_due_recomputed (db : List Expense) (expense : Expense)
    (h : ∀ s ∈ db, expenseInvariant s) :
    (∀ s ∈ ExpenseRepository.Insert db expense, expenseInvariant s) ∧
    (∀ s ∈ ExpenseRepository.Update db expense, expenseInvariant s) := by
  constructor
  · intro s hs
    rcases List.mem_append.mp hs with hmem | hmem
    · exact h s hmem
    · rw [List.mem_singleton.mp hmem]
      exact expenseInvariant_recompute expense
  · intro s hs
    rcases List.mem_map.mp hs with ⟨r, hr, hrs⟩
    by_cases hc : (r.id == (ExpenseRepository.recompute expense).id && !r.deleted) = true
    · rw [if_pos hc] at hrs
      rw [← hrs]
      exact expenseInvariant_recompute expense
    · rw [if_neg hc] at hrs
      rw [← hrs]
      exact h r hr

/-- C8 witness: inserting and updating an expense with a junk caller-supplied
`amount_due` yields rows satisfying the expense invariant. -/
theorem expense_amount_due_recomputed_witness :
    (∀ s ∈ ExpenseRepository.Insert [] exJunkExpense, expenseInvariant s) ∧
    (∀ s ∈ ExpenseRepository.Update [ExpenseRepository.recompute exJunkExpense]
      exJunkExpense, expenseInvariant s) := by
  have h := expense_amount_due_recomputed [] exJunkExpense (by simp)
  have h2 := expense_amount_due_recomputed
    [ExpenseRepository.recompute exJunkExpense] exJunkExpense (by
      intro s hs
      rw [List.mem_singleton.mp hs]
      exact expenseInvariant_recompute exJunkExpense)
  exact ⟨h.1, h2.2⟩

/-- C4 (code bug).  A profile update that supplies no new password still
changes the stored password: `UpdateProfile` loads the user — whose
`Password` field then holds the stored bcrypt hash, which is non-empty — and
`UserRepository.Update` re-hashes that hash, so the stored column becomes the
hash of the hash instead of being left unchanged. -/
theorem profile_update_rehashes_stored_hash :
    AuthHandler.UpdateProfile [exProfileUser] 1 "New Name" none none =
      (.success,
       [{ exProfileUser with name := "New Name",
                             password := HashPassword (HashPassword "secret") }]) ∧
    HashPassword (HashPassword "secret") ≠ HashPassword "secret" := by
  constructor
  · decide
  · decide

/-- C3 counterexample.  A soft-deleted income record is invisible to the
list operation but still contributes its full amount to the monthly rollup,
so deletion does not hide a record from every aggregate operation. -/
theorem deleted_income_visible_in_monthly_rollup :
    exDeletedIncome.deleted = true ∧
    IncomeRepository.GetAll [exDeletedIncome] 1 = [] ∧
    IncomeRepository.GetMonthlyData [exDeletedIncome] 1 2025 =
      [{ month := (2025, 3), income := 100, expenses := 0, profit := 0 }] := by
  refine ⟨rfl, rfl, ?_⟩
  simp [IncomeRepository.GetMonthlyData, exDeletedIncome, monthKey, sumQ,
    List.dedup]

/-- C3 amended.  Soft-deleted rows are invisible to list, get-one,
date-range, financial-summary and category-breakdown reads of every
monetary entity (each of those is unchanged when deleted rows are removed
from the table), but the monthly rollups of income and expense read raw SQL
without the soft-delete filter: soft-deleting any record leaves the rollup
unchanged, i.e. deleted rows stay included there. -/
theorem soft_delete_visibility (i_db : List Income) (e_db : List Expense)
    (v_db : List InventoryItem) (uid id uid2 : Nat) (y : Int)
    (startDate endDate : Date) :
    (IncomeRepository.GetAll (i_db.filter (fun r => !r.deleted)) uid =
      IncomeRepository.GetAll i_db uid) ∧
    (IncomeRepository.GetOne (i_db.filter (fun r => !r.deleted)) id uid =
      IncomeRepository.GetOne i_db id uid) ∧
    (IncomeRepository.GetByDateRange (i_db.filter (fun r => !r.deleted)) uid
      startDate endDate = IncomeRepository.GetByDateRange i_db uid startDate endDate) ∧
    (IncomeRepository.GetFinancialSummary (i_db.filter (fun r => !r.deleted)) uid =
      IncomeRepository.GetFinancialSummary i_db uid) ∧
    (IncomeRepository.GetMonthlyData (IncomeRepository.Delete i_db id uid2) uid y =
      IncomeRepository.GetMonthlyData i_db uid y) ∧
    (ExpenseRepository.GetAll (e_db.filter (fun r => !r.deleted)) uid =
      ExpenseRepository.GetAll e_db uid) ∧
    (ExpenseRepository.GetOne (e_db.filter (fun r => !r.deleted)) id uid =
      ExpenseRepository.GetOne e_db id uid) ∧
    (ExpenseRepository.GetByDateRange (e_db.filter (fun r => !r.deleted)) uid
      startDate endDate = ExpenseRepository.GetByDateRange e_db uid startDate endDate) ∧
    (ExpenseRepository.GetCategoryBreakdown (e_db.filter (fun r => !r.deleted)) uid =
      ExpenseRepository.GetCategoryBreakdown e_db uid) ∧
    (ExpenseRepository.GetFinancialSummary (e_db.filter (fun r => !r.deleted)) uid =
      ExpenseRepository.GetFinancialSummary e_db uid) ∧
    (ExpenseRepository.GetMonthlyData (ExpenseRepository.Delete e_db id uid2) uid y =
      ExpenseRepository.GetMonthlyData e_db uid y) ∧
    (InventoryRepository.GetAll (v_db.filter (fun r => !r.deleted)) uid =
      InventoryRepository.GetAll v_db uid) ∧
    (InventoryRepository.GetOne (v_db.filter (fun r => !r.deleted)) id uid =
      InventoryRepository.GetOne v_db id uid) ∧
    (InventoryRepository.GetLowStockItems (v_db.filter (fun r => !r.deleted)) uid =
      InventoryRepository.GetLowStockItems v_db uid) := by
  refine ⟨?_, ?_, ?_, ?_, ?_, ?_, ?_, ?_, ?_, ?_, ?_, ?_, ?_, ?_⟩
  · simp only [IncomeRepository.GetAll]
    rw [filter_balanced _ _ (fun a ha => by
      simp [IncomeRepository.liveOf] at ha ⊢; tauto)]
  · simp only [IncomeRepository.GetOne]
    rw [filter_balanced _ _ (fun a ha => by simp at ha ⊢; tauto)]
  · simp only [IncomeRepository.GetByDateRange]
    rw [filter_balanced _ _ (fun a ha => by simp at ha ⊢; tauto)]
  · simp only [IncomeRepository.GetFinancialSummary]
    rw [filter_balanced _ _ (fun a ha => by
        simp [IncomeRepository.liveOf] at ha ⊢; tauto),
      filter_balanced _ _ (fun a ha => by
        simp [IncomeRepository.liveOf] at ha ⊢; tauto)]
  · exact income_monthly_map_invariant _ (income_markDeleted_date id uid2)
      (income_markDeleted_userId id uid2) (income_markDeleted_totalAmount id uid2)
      i_db uid y
  · simp only [ExpenseRepository.GetAll]
    rw [filter_balanced _ _ (fun a ha => by
      simp [ExpenseRepository.liveOf] at ha ⊢; tauto)]
  · simp only [ExpenseRepository.GetOne]
    rw [filter_balanced _ _ (fun a ha => by simp at ha ⊢; tauto)]
  · simp only [ExpenseRepository.GetByDateRange]
    rw [filter_balanced _ _ (fun a ha => by simp at ha ⊢; tauto)]
  · have hrows : (e_db.filter (fun r => !r.deleted)).filter
        (ExpenseRepository.liveOf uid) = e_db.filter (ExpenseRepository.liveOf uid) :=
      filter_balanced _ _ (fun a ha => by
        simp [ExpenseRepository.liveOf] at ha ⊢; tauto) e_db
    have hsg : ExpenseRepository.sortedGroups (e_db.filter (fun r => !r.deleted)) uid
        = ExpenseRepository.sortedGroups e_db uid := by
      unfold ExpenseRepository.sortedGroups ExpenseRepository.groupedRows
      rw [hrows]
    simp only [ExpenseRepository.GetCategoryBreakdown]
    rw [hsg]
  · simp only [ExpenseRepository.GetFinancialSummary]
    rw [filter_balanced _ _ (fun a ha => by
        simp [ExpenseRepository.liveOf] at ha ⊢; tauto),
      filter_balanced _ _ (fun a ha => by
        simp [ExpenseRepository.liveOf] at ha ⊢; tauto)]
  · exact expense_monthly_map_invariant _ (expense_markDeleted_date id uid2)
      (expense_markDeleted_userId id uid2) (expense_markDeleted_amount id uid2)
      e_db uid y
  · simp only [InventoryRepository.GetAll]
    rw [filter_balanced _ _ (fun a ha => by
      simp [InventoryRepository.liveOf] at ha ⊢; tauto)]
  · simp only [InventoryRepository.GetOne]
    rw [filter_balanced _ _ (fun a ha => by simp at ha ⊢; tauto)]
  · simp only [InventoryRepository.GetLowStockItems]
    rw [filter_balanced _ _ (fun a ha => by simp at ha ⊢; tauto)]

/-- C1 counterexample.  User 2 soft-deletes income record 1 owned by user 1:
the delete handler answers with the 200 success envelope (the repository
delete matches no row and returns a nil error, and neither layer checks the
affected-row count), not with a not-found result as the claim requires. -/
theorem cross_tenant_delete_reports_success :
    exIncomeA ∈ [exIncomeA] ∧ exIncomeA.userId = 1 ∧ (2 : Nat) ≠ 1 ∧
    IncomeHandler.DeleteIncome [exIncomeA] 1 2 =
      (HandlerStatus.success, [exIncomeA]) ∧
    HandlerStatus.success ≠ HandlerStatus.notFound := by
  refine ⟨List.mem_singleton.mpr rfl, rfl, by decide, ?_, by decide⟩
  simp [IncomeHandler.DeleteIncome, IncomeRepository.Delete,
    IncomeRepository.markDeleted, exIncomeA]

/-- C1 amended.  For distinct users A and B and a record owned by A (with
its id unique in the table): get-one and update invoked with B's user id
answer not-found and never return or modify A's record; delete invoked with
B's user id leaves the table unchanged and never yields A's record, but
reports success rather than not-found; no path produces a distinct
forbidden signal (the handler status type has none). -/
theorem cross_tenant_isolation :
    (∀ (db : List Income) (id a b : Nat) (r : Income),
      r ∈ db → r.id = id → r.userId = a → a ≠ b →
      (∀ s ∈ db, s.id = id → s = r) →
      IncomeRepository.GetOne db id b = none ∧
      IncomeHandler.GetIncome db id b = (HandlerStatus.notFound, none) ∧
      (∀ req, IncomeHandler.UpdateIncome db id b req = (HandlerStatus.notFound, db)) ∧
      IncomeHandler.DeleteIncome db id b = (HandlerStatus.success, db)) ∧
    (∀ (db : List Expense) (id a b : Nat) (r : Expense),
      r ∈ db → r.id = id → r.userId = a → a ≠ b →
      (∀ s ∈ db, s.id = id → s = r) →
      ExpenseRepository.GetOne db id b = none ∧
      ExpenseHandler.GetExpense db id b = (HandlerStatus.notFound, none) ∧
      (∀ req, ExpenseHandler.UpdateExpense db id b req = (HandlerStatus.notFound, db)) ∧
      ExpenseHandler.DeleteExpense db id b = (HandlerStatus.success, db)) := by
  constructor
  · intro db id a b r hr hid huid hab huniq
    have hkey : ∀ s ∈ db, (s.id == id && s.userId == b && !s.deleted) = false := by
      intro s hs
      by_cases h1 : s.id = id
      · have hs_eq := huniq s hs h1
        rw [hs_eq]
        have hub : (r.userId == b) = false := by
          rw [huid]; exact beq_eq_false_iff_ne.mpr hab
        simp [hub]
      · have h1b : (s.id == id) = false := beq_eq_false_iff_ne.mpr h1
        simp [h1b]
    have hone : IncomeRepository.GetOne db id b = none := by
      unfold IncomeRepository.GetOne
      rw [List.filter_eq_nil_iff.mpr (by intro s hs; rw [hkey s hs]; decide)]
      rfl
    have hmark : ∀ s ∈ db, IncomeRepository.markDeleted id b s = s := by
      intro s hs
      unfold IncomeRepository.markDeleted
      rw [if_neg (by rw [hkey s hs]; decide)]
    have hdel : IncomeRepository.Delete db id b = db :=
      (List.map_congr_left hmark).trans (List.map_id db)
    refine ⟨hone, ?_, ?_, ?_⟩
    · simp [IncomeHandler.GetIncome, hone]
    · intro req
      simp [IncomeHandler.UpdateIncome, hone]
    · simp [IncomeHandler.DeleteIncome, hdel]
  · intro db id a b r hr hid huid hab huniq
    have hkey : ∀ s ∈ db, (s.id == id && s.userId == b && !s.deleted) = false := by
      intro s hs
      by_cases h1 : s.id = id
      · have hs_eq := huniq s hs h1
        rw [hs_eq]
        have hub : (r.userId == b) = false := by
          rw [huid]; exact beq_eq_false_iff_ne.mpr hab
        simp [hub]
      · have h1b : (s.id == id) = false := beq_eq_false_iff_ne.mpr h1
        simp [h1b]
    have hone : ExpenseRepository.GetOne db id b = none := by
      unfold ExpenseRepository.GetOne
      rw [List.filter_eq_nil_iff.mpr (by intro s hs; rw [hkey s hs]; decide)]
      rfl
    have hmark : ∀ s ∈ db, ExpenseRepository.markDeleted id b s = s := by
      intro s hs
      unfold ExpenseRepository.markDeleted
      rw [if_neg (by rw [hkey s hs]; decide)]
    have hdel : ExpenseRepository.Delete db id b = db :=
      (List.map_congr_left hmark).trans (List.map_id db)
    refine ⟨hone, ?_, ?_, ?_⟩
    · simp [ExpenseHandler.GetExpense, hone]
    · intro req
      simp [ExpenseHandler.UpdateExpense, hone]
    · simp [ExpenseHandler.DeleteExpense, hdel]

/-- C1 witness: user 2 probing record 1 owned by user 1, on both the income
and the expense side, with a concrete update request. -/
theorem cross_tenant_isolation_witness :
    IncomeRepository.GetOne [exIncomeA] 1 2 = none ∧
    IncomeHandler.UpdateIncome [exIncomeA] 1 2 exUpdateIncomeReq =
      (HandlerStatus.notFound, [exIncomeA]) ∧
    IncomeHandler.DeleteIncome [exIncomeA] 1 2 =
      (HandlerStatus.success, [exIncomeA]) ∧
    ExpenseRepository.GetOne [exExpenseA] 1 2 = none ∧
    ExpenseHandler.UpdateExpense [exExpenseA] 1 2 exUpdateExpenseReq =
      (HandlerStatus.notFound, [exExpenseA]) ∧
    ExpenseHandler.DeleteExpense [exExpenseA] 1 2 =
      (HandlerStatus.success, [exExpenseA]) := by
  have hi := cross_tenant_isolation.1 [exIncomeA] 1 1 2 exIncomeA
    (List.mem_singleton.mpr rfl) rfl rfl (by decide)
    (by intro s hs _; exact List.mem_singleton.mp hs)
  have he := cross_tenant_isolation.2 [exExpenseA] 1 1 2 exExpenseA
    (List.mem_singleton.mpr rfl) rfl rfl (by decide)
    (by intro s hs _; exact List.mem_singleton.mp hs)
  exact ⟨hi.1, hi.2.2.1 exUpdateIncomeReq, hi.2.2.2,
         he.1, he.2.2.1 exUpdateExpenseReq, he.2.2.2⟩

/-- C5.  A one-time code stored for an email at time T (expiry T + 600
seconds) verifies for that email at any time strictly before the expiry,
fails at or after the expiry, and — provided codes are independent per email,
i.e. no other stored row happens to carry this code — fails for any other
email even with the correct code. -/
theorem otp_window (db : List User) (email otp : String) (T : Int)
    (hexists : ∃ u ∈ db, u.email = email ∧ u.deleted = false) :
    (∀ s : Int, s < T + 600 →
      UserRepository.VerifyOTP (UserRepository.GenerateAndSaveOTP db email otp T)
        email otp s = true) ∧
    (∀ s : Int, T + 600 ≤ s →
      UserRepository.VerifyOTP (UserRepository.GenerateAndSaveOTP db email otp T)
        email otp s = false) ∧
    (∀ (email2 : String) (s : Int), email2 ≠ email →
      (∀ u ∈ db, u.otpCode ≠ otp) →
      UserRepository.VerifyOTP (UserRepository.GenerateAndSaveOTP db email otp T)
        email2 otp s = false) := by
  obtain ⟨u, hu, hue, hud⟩ := hexists
  refine ⟨?_, ?_, ?_⟩
  · intro s hs
    unfold UserRepository.VerifyOTP UserRepository.GenerateAndSaveOTP
    rw [List.any_eq_true]
    refine ⟨_, List.mem_map_of_mem _ hu, ?_⟩
    simp [hue, hud, hs]
  · intro s hs
    unfold UserRepository.VerifyOTP UserRepository.GenerateAndSaveOTP
    rw [List.any_eq_false]
    intro x hx
    obtain ⟨v, hv, rfl⟩ := List.mem_map.mp hx
    by_cases hc : (v.email == email && !v.deleted) = true
    · rw [if_pos hc]
      simp [not_lt.mpr hs]
    · rw [if_neg hc]
      by_cases hve : v.email = email
      · have hvd : v.deleted = true := by
          cases hd : v.deleted
          · exact absurd (by simp [hve, hd]) hc
          · rfl
        simp [hvd]
      · simp [beq_eq_false_iff_ne.mpr hve]
  · intro email2 s hne hcode
    unfold UserRepository.VerifyOTP UserRepository.GenerateAndSaveOTP
    rw [List.any_eq_false]
    intro x hx
    obtain ⟨v, hv, rfl⟩ := List.mem_map.mp hx
    by_cases hc : (v.email == email && !v.deleted) = true
    · rw [if_pos hc]
      have hve : v.email = email := by
        have h2 := (Bool.and_eq_true _ _).mp hc
        exact beq_iff_eq.mp h2.1
      simp [hve, beq_eq_false_iff_ne.mpr (Ne.symm hne)]
    · rw [if_neg hc]
      by_cases hve : v.email = email2
      · simp [beq_eq_false_iff_ne.mpr (hcode v hv)]
      · simp [beq_eq_false_iff_ne.mpr hve]

/-- C5 witness: a code stored at T = 0 for `reset@example.com` verifies at
second 540 (T+9min), fails at seconds 600 and 660 (T+10min, T+11min), and
fails for a different email at second 540. -/
theorem otp_window_witness :
    UserRepository.VerifyOTP
      (UserRepository.GenerateAndSaveOTP [exOtpUser] "reset@example.com" "123456" 0)
      "reset@example.com" "123456" 540 = true ∧
    UserRepository.VerifyOTP
      (UserRepository.GenerateAndSaveOTP [exOtpUser] "reset@example.com" "123456" 0)
      "reset@example.com" "123456" 600 = false ∧
    UserRepository.VerifyOTP
      (UserRepository.GenerateAndSaveOTP [exOtpUser] "reset@example.com" "123456" 0)
      "reset@example.com" "123456" 660 = false ∧
    UserRepository.VerifyOTP
      (UserRepository.GenerateAndSaveOTP [exOtpUser] "reset@example.com" "123456" 0)
      "other@example.com" "123456" 540 = false := by
  have h := otp_window [exOtpUser] "reset@example.com" "123456" 0
    ⟨exOtpUser, List.mem_singleton.mpr rfl, rfl, rfl⟩
  refine ⟨h.1 540 (by decide), h.2.1 600 (by decide), h.2.1 660 (by decide),
    h.2.2 "other@example.com" 540 (by decide) ?_⟩
  intro v hv
  rw [List.mem_singleton.mp hv]
  decide

/-- C9.  Password reset via one-time code fails closed: when verification
fails the call returns the error and the table is unchanged; when it
succeeds every matching live row gets the hash of the new password stored
with the code and its expiry cleared in the same write, and every other row
is untouched. -/
theorem reset_password_with_otp_spec (db : List User)
    (email otp newPassword : String) (now : Int) :
    (UserRepository.VerifyOTP db email otp now = false →
      UserRepository.ResetPasswordWithOTP db email otp newPassword now =
        (Except.error "invalid or expired OTP", db)) ∧
    (UserRepository.VerifyOTP db email otp now = true →
      (UserRepository.ResetPasswordWithOTP db email otp newPassword now).1 =
        Except.ok () ∧
      ∀ u ∈ db,
        (u.email = email → u.deleted = false →
          { u with password := HashPassword newPassword, otpCode := "",
                   otpExpiresAt := none } ∈
            (UserRepository.ResetPasswordWithOTP db email otp newPassword now).2) ∧
        (¬(u.email = email ∧ u.deleted = false) →
          u ∈ (UserRepository.ResetPasswordWithOTP db email otp newPassword now).2)) := by
  constructor
  · intro h
    simp [UserRepository.ResetPasswordWithOTP, h]
  · intro h
    constructor
    · simp [UserRepository.ResetPasswordWithOTP, h]
    · intro u hu
      constructor
      · intro hue hud
        simp only [UserRepository.ResetPasswordWithOTP, h, if_true]
        exact List.mem_map.mpr ⟨u, hu, by simp [hue, hud]⟩
      · intro hno
        have hcond : (u.email == email && !u.deleted) = false := by
          by_cases hue : u.email = email
          · have hud : u.deleted = true := by
              cases hd : u.deleted
              · exact absurd ⟨hue, hd⟩ hno
              · rfl
            simp [hud]
          · simp [beq_eq_false_iff_ne.mpr hue]
        simp only [UserRepository.ResetPasswordWithOTP, h, if_true]
        exact List.mem_map.mpr ⟨u, hu, by rw [if_neg (by rw [hcond]; decide)]⟩

/-- C9 witness: with the stored code "654321" (expiry 600), reset at time
1000 fails closed leaving the row unchanged, while reset at time 0 succeeds
and stores the new hash with the code and expiry cleared. -/
theorem reset_password_with_otp_witness :
    UserRepository.ResetPasswordWithOTP [exOtpUserSet] "reset@example.com"
      "654321" "newpw" 1000 =
      (Except.error "invalid or expired OTP", [exOtpUserSet]) ∧
    (UserRepository.ResetPasswordWithOTP [exOtpUserSet] "reset@example.com"
      "654321" "newpw" 0).1 = Except.ok () ∧
    { exOtpUserSet with password := HashPassword "newpw", otpCode := "",
                        otpExpiresAt := none } ∈
      (UserRepository.ResetPasswordWithOTP [exOtpUserSet] "reset@example.com"
        "654321" "newpw" 0).2 := by
  have h := reset_password_with_otp_spec [exOtpUserSet] "reset@example.com"
    "654321" "newpw" 1000
  have h0 := reset_password_with_otp_spec [exOtpUserSet] "reset@example.com"
    "654321" "newpw" 0
  have hv1000 : UserRepository.VerifyOTP [exOtpUserSet] "reset@example.com"
      "654321" 1000 = false := by decide
  have hv0 : UserRepository.VerifyOTP [exOtpUserSet] "reset@example.com"
      "654321" 0 = true := by decide
  refine ⟨h.1 hv1000, (h0.2 hv0).1, ?_⟩
  exact ((h0.2 hv0).2 exOtpUserSet (List.mem_singleton.mpr rfl)).1 rfl rfl

/-- C10.  The low-stock query returns exactly the user's live items with
`quantity ≤ min_stock_level` (the boundary-equal case included, all others
excluded), ordered by ascending quantity. -/
theorem low_stock_query (db : List InventoryItem) (userID : Nat) :
    (∀ r : InventoryItem,
      r ∈ InventoryRepository.GetLowStockItems db userID ↔
        (r ∈ db ∧ r.userId = userID ∧ r.deleted = false ∧
         r.quantity ≤ r.minStockLevel)) ∧
    List.Sorted InventoryRepository.quantityAsc
      (InventoryRepository.GetLowStockItems db userID) := by
  constructor
  · intro r
    unfold InventoryRepository.GetLowStockItems
    rw [List.mem_insertionSort, List.mem_filter]
    simp [and_assoc]
  · exact List.sorted_insertionSort _ _

theorem monthly_filter_nil (l : List MonthlyData) (m : Int × Nat)
    (h : m ∉ l.map (fun d => d.month)) :
    l.filter (fun x => decide (x.month = m)) = [] := by
  apply List.filter_eq_nil_iff.mpr
  intro x hx
  simp only [decide_eq_true_eq]
  intro heq
  exact h (by rw [← heq]; exact List.mem_map_of_mem _ hx)

theorem monthly_filter_single (l : List MonthlyData)
    (h : (l.map (fun d => d.month)).Nodup) (d : MonthlyData) (hd : d ∈ l) :
    l.filter (fun x => decide (x.month = d.month)) = [d] := by
  induction l with
  | nil => cases hd
  | cons a t ih =>
    rw [List.map_cons, List.nodup_cons] at h
    obtain ⟨ha, ht⟩ := h
    rcases List.mem_cons.mp hd with rfl | hdt
    · rw [List.filter_cons_of_pos (by simp)]
      rw [monthly_filter_nil t _ ha]
    · have hne : a.month ≠ d.month := by
        intro he
        exact ha (he ▸ List.mem_map_of_mem _ hdt)
      rw [List.filter_cons_of_neg (by simp [hne])]
      exact ih ht hdt

/-- C7.  The analytics monthly merge (applied to the repository rollup
series, whose month keys are distinct) produces exactly one entry per month
present in either series; each entry's income (resp. expense) value is taken
from its source series, with zero substituted when the month is absent from
that source, and its profit equals income minus expenses.  No output order
is claimed. -/
theorem monthly_merge (incomeData expenseData : List MonthlyData)
    (hinc : (incomeData.map (fun d => d.month)).Nodup)
    (hexp : (expenseData.map (fun d => d.month)).Nodup) :
    ((AnalyticsHandler.GetMonthlyData incomeData expenseData).map
        (fun e => e.month)).Nodup ∧
    (∀ m : Int × Nat,
      (∃ e ∈ AnalyticsHandler.GetMonthlyData incomeData expenseData, e.month = m) ↔
        (m ∈ incomeData.map (fun d => d.month) ∨
         m ∈ expenseData.map (fun d => d.month))) ∧
    (∀ e ∈ AnalyticsHandler.GetMonthlyData incomeData expenseData,
      e.profit = e.income - e.expenses) ∧
    (∀ d ∈ incomeData,
      ∃ e ∈ AnalyticsHandler.GetMonthlyData incomeData expenseData,
        e.month = d.month ∧ e.income = d.income) ∧
    (∀ e ∈ AnalyticsHandler.GetMonthlyData incomeData expenseData,
      e.month ∉ incomeData.map (fun d => d.month) → e.income = 0) ∧
    (∀ d ∈ expenseData,
      ∃ e ∈ AnalyticsHandler.GetMonthlyData incomeData expenseData,
        e.month = d.month ∧ e.expenses = d.expenses) ∧
    (∀ e ∈ AnalyticsHandler.GetMonthlyData incomeData expenseData,
      e.month ∉ expenseData.map (fun d => d.month) → e.expenses = 0) := by
  have hmonth : ∀ m, (AnalyticsHandler.mergeEntry incomeData expenseData m).month = m :=
    fun m => rfl
  refine ⟨?_, ?_, ?_, ?_, ?_, ?_, ?_⟩
  · simp only [AnalyticsHandler.GetMonthlyData]
    rw [List.map_map]
    have hcomp : ((fun e => e.month) ∘ AnalyticsHandler.mergeEntry incomeData expenseData)
        = fun m => m := rfl
    rw [hcomp, List.map_id']
    exact List.nodup_dedup _
  · intro m
    constructor
    · rintro ⟨e, he, rfl⟩
      obtain ⟨k, hk, rfl⟩ := List.mem_map.mp he
      rw [hmonth]
      exact List.mem_append.mp (List.mem_dedup.mp hk)
    · intro hm
      exact ⟨AnalyticsHandler.mergeEntry incomeData expenseData m,
        List.mem_map_of_mem _ (List.mem_dedup.mpr (List.mem_append.mpr hm)), rfl⟩
  · intro e he
    obtain ⟨m, _, rfl⟩ := List.mem_map.mp he
    rfl
  · intro d hd
    refine ⟨AnalyticsHandler.mergeEntry incomeData expenseData d.month,
      List.mem_map_of_mem _ (List.mem_dedup.mpr (List.mem_append.mpr
        (Or.inl (List.mem_map_of_mem _ hd)))), rfl, ?_⟩
    simp [AnalyticsHandler.mergeEntry, monthly_filter_single incomeData hinc d hd]
  · intro e he hm
    obtain ⟨m, _, rfl⟩ := List.mem_map.mp he
    rw [hmonth] at hm
    simp [AnalyticsHandler.mergeEntry, monthly_filter_nil incomeData m hm]
  · intro d hd
    refine ⟨AnalyticsHandler.mergeEntry incomeData expenseData d.month,
      List.mem_map_of_mem _ (List.mem_dedup.mpr (List.mem_append.mpr
        (Or.inr (List.mem_map_of_mem _ hd)))), rfl, ?_⟩
    simp [AnalyticsHandler.mergeEntry, monthly_filter_single expenseData hexp d hd]
  · intro e he hm
    obtain ⟨m, _, rfl⟩ := List.mem_map.mp he
    rw [hmonth] at hm
    simp [AnalyticsHandler.mergeEntry, monthly_filter_nil expenseData m hm]

/-- C7 witness: merging series with months 2025-01, 2025-02 (income) and
2025-02, 2025-03 (expense) yields distinct months and carries the 2025-01
income value through. -/
theorem monthly_merge_witness :
    ((AnalyticsHandler.GetMonthlyData exIncMonthly exExpMonthly).map
        (fun e => e.month)).Nodup ∧
    (∃ e ∈ AnalyticsHandler.GetMonthlyData exIncMonthly exExpMonthly,
      e.month = ((2025 : Int), (1 : Nat)) ∧ e.income = 100) ∧
    (∀ e ∈ AnalyticsHandler.GetMonthlyData exIncMonthly exExpMonthly,
      e.profit = e.income - e.expenses) := by
  have h := monthly_merge exIncMonthly exExpMonthly (by decide) (by decide)
  refine ⟨h.1, ?_, h.2.2.1⟩
  have h4 := h.2.2.2.1 { month := (2025, 1), income := 100, expenses := 0, profit := 0 }
    (by simp [exIncMonthly])
  exact h4

theorem sumQ_map_pct (l : List ℚ) (T : ℚ) :
    sumQ (l.map (fun a => a / T * 100)) = sumQ l / T * 100 := by
  induction l with
  | nil => simp [sumQ]
  | cons a t ih =>
    simp only [List.map_cons, sumQ_cons, ih]
    ring

theorem breakdown_amounts (db : List Expense) (userID : Nat) :
    (ExpenseRepository.GetCategoryBreakdown db userID).map (fun b => b.amount)
      = (ExpenseRepository.sortedGroups db userID).map (fun p => p.2) := by
  simp only [ExpenseRepository.GetCategoryBreakdown]
  rw [List.map_map]
  exact List.map_congr_left (fun p _ => rfl)

theorem breakdown_categories (db : List Expense) (userID : Nat) :
    (ExpenseRepository.GetCategoryBreakdown db userID).map (fun b => b.category)
      = (ExpenseRepository.sortedGroups db userID).map (fun p => p.1) := by
  simp only [ExpenseRepository.GetCategoryBreakdown]
  rw [List.map_map]
  exact List.map_congr_left (fun p _ => rfl)

/-- C6.  The category breakdown has one entry per category occurring among
the user's live expenses, carrying that category's summed amount; when the
grand total (the sum of the grouped amounts) is positive every entry's
percentage is its amount over the total times 100 and the percentages sum to
exactly 100, and when the grand total is zero every percentage is zero. -/
theorem category_breakdown (db : List Expense) (userID : Nat) :
    ((ExpenseRepository.GetCategoryBreakdown db userID).map
        (fun b => b.category)).Nodup ∧
    (∀ c : String,
      (∃ b ∈ ExpenseRepository.GetCategoryBreakdown db userID, b.category = c) ↔
        c ∈ (db.filter (ExpenseRepository.liveOf userID)).map (fun r => r.category)) ∧
    (∀ b ∈ ExpenseRepository.GetCategoryBreakdown db userID,
      b.amount = ExpenseRepository.groupSum
        (db.filter (ExpenseRepository.liveOf userID)) b.category) ∧
    (0 < sumQ ((ExpenseRepository.GetCategoryBreakdown db userID).map
        (fun b => b.amount)) →
      (∀ b ∈ ExpenseRepository.GetCategoryBreakdown db userID,
        b.percentage = b.amount / sumQ ((ExpenseRepository.GetCategoryBreakdown
          db userID).map (fun b => b.amount)) * 100) ∧
      sumQ ((ExpenseRepository.GetCategoryBreakdown db userID).map
        (fun b => b.percentage)) = 100) ∧
    (sumQ ((ExpenseRepository.GetCategoryBreakdown db userID).map
        (fun b => b.amount)) = 0 →
      ∀ b ∈ ExpenseRepository.GetCategoryBreakdown db userID, b.percentage = 0) := by
  have hperm : List.Perm (ExpenseRepository.sortedGroups db userID)
      (ExpenseRepository.groupedRows db userID) := by
    simp only [ExpenseRepository.sortedGroups]
    exact List.perm_insertionSort _ _
  have hamt := breakdown_amounts db userID
  have hcat := breakdown_categories db userID
  have hgfst : (ExpenseRepository.groupedRows db userID).map (fun p => p.1)
      = ((db.filter (ExpenseRepository.liveOf userID)).map
          (fun r => r.category)).dedup := by
    simp only [ExpenseRepository.groupedRows]
    rw [List.map_map]
    exact (List.map_congr_left (fun a _ => rfl)).trans (List.map_id' _)
  refine ⟨?_, ?_, ?_, ?_, ?_⟩
  · rw [hcat]
    rw [(hperm.map (fun p => p.1)).nodup_iff, hgfst]
    exact List.nodup_dedup _
  · intro c
    have hiff : (∃ b ∈ ExpenseRepository.GetCategoryBreakdown db userID,
        b.category = c) ↔
        c ∈ (ExpenseRepository.GetCategoryBreakdown db userID).map
          (fun b => b.category) := by
      constructor
      · rintro ⟨b, hb, rfl⟩
        exact List.mem_map_of_mem _ hb
      · intro hc
        obtain ⟨b, hb, rfl⟩ := List.mem_map.mp hc
        exact ⟨b, hb, rfl⟩
    rw [hiff, hcat, (hperm.map (fun p => p.1)).mem_iff, hgfst, List.mem_dedup]
  · intro b hb
    simp only [ExpenseRepository.GetCategoryBreakdown] at hb
    obtain ⟨p, hp, rfl⟩ := List.mem_map.mp hb
    have hpg := hperm.mem_iff.mp hp
    simp only [ExpenseRepository.groupedRows] at hpg
    obtain ⟨cc, _, rfl⟩ := List.mem_map.mp hpg
    rfl
  · intro hpos
    rw [hamt] at hpos
    constructor
    · intro b hb
      rw [hamt]
      simp only [ExpenseRepository.GetCategoryBreakdown] at hb
      obtain ⟨p, hp, rfl⟩ := List.mem_map.mp hb
      simp only [if_pos hpos]
    · have hmap : (ExpenseRepository.GetCategoryBreakdown db userID).map
          (fun b => b.percentage)
          = ((ExpenseRepository.sortedGroups db userID).map (fun p => p.2)).map
            (fun a => a / sumQ ((ExpenseRepository.sortedGroups db userID).map
              (fun p => p.2)) * 100) := by
        simp only [ExpenseRepository.GetCategoryBreakdown]
        rw [List.map_map, List.map_map]
        apply List.map_congr_left
        intro p _
        simp only [Function.comp]
        rw [if_pos hpos]
      rw [hmap, sumQ_map_pct, div_self (ne_of_gt hpos)]
      norm_num
  · intro hzero
    rw [hamt] at hzero
    intro b hb
    simp only [ExpenseRepository.GetCategoryBreakdown] at hb
    obtain ⟨p, hp, rfl⟩ := List.mem_map.mp hb
    simp only [hzero, lt_irrefl, if_false]

/-- C6 witness: for three concrete expenses (fuel 120 + 40, labor 80) the
grand total 240 is positive and the percentages sum to exactly 100. -/
theorem category_breakdown_witness :
    0 < sumQ ((ExpenseRepository.GetCategoryBreakdown exExpenses 1).map
      (fun b => b.amount)) ∧
    sumQ ((ExpenseRepository.GetCategoryBreakdown exExpenses 1).map
      (fun b => b.percentage)) = 100 := by
  have hcats : ((exExpenses.filter (ExpenseRepository.liveOf 1)).map
      (fun r => r.category)).dedup = ["labor", "fuel"] := by decide
  have hg : ExpenseRepository.groupedRows exExpenses 1 =
      [("labor", 80), ("fuel", 160)] := by
    simp only [ExpenseRepository.groupedRows]
    rw [hcats]
    simp [ExpenseRepository.groupSum, ExpenseRepository.liveOf, sumQ,
      exExpenses, exExpenseA]
    norm_num
  have hs : ExpenseRepository.sortedGroups exExpenses 1 =
      [("fuel", 160), ("labor", 80)] := by
    simp only [ExpenseRepository.sortedGroups, hg]
    simp [List.insertionSort, List.orderedInsert, ExpenseRepository.amountDesc]
    norm_num
  have hpos : 0 < sumQ ((ExpenseRepository.GetCategoryBreakdown exExpenses 1).map
      (fun b => b.amount)) := by
    rw [breakdown_amounts, hs]
    norm_num [sumQ]
  exact ⟨hpos, ((category_breakdown exExpenses 1).2.2.2.1 hpos).2⟩

end Mining
